import Mathlib

/-!
# ActionRPG character: stat, input and camera handlers

A shallow embedding of `Source/ActionRPG/ActionRPGCharacter.{h,cpp}`.

* `float` stats and amounts are rationals (`ℚ`). `HealPlayer`, `HealArmor` and
  `DamagePlayer` are given twice: in exact arithmetic, and as `Rounded.HealPlayer`,
  `Rounded.HealArmor`, `Rounded.DamagePlayer` with the rounding of every `+=` and
  `-=` explicit. `Float32.nearest` is that rounding for finite single-precision
  values; infinities and NaN are not modelled.
* Engine-owned subobjects reached through pointers (`Controller`, `CameraBoom`,
  the character movement component) are `Option` values; `none` is `nullptr`.
* What a handler hands to the engine (`UE_LOG` lines, `AddMovementInput`,
  `AddControllerYawInput`, `AddControllerPitchInput`) is appended to a trace kept
  next to the character in `World`.
* A handler that dereferences a pointer without a null check (`Sprint`,
  `StopSprinting`) returns `Option World`.
-/

namespace ActionRPG

/-! ## Engine types -/

/-- Engine vector `FVector`. -/
structure FVector where
  X : ℚ
  Y : ℚ
  Z : ℚ
  deriving DecidableEq, Repr

/-- Engine 2D vector `FVector2D`, the payload of a move or look input. -/
structure FVector2D where
  X : ℚ
  Y : ℚ
  deriving DecidableEq, Repr

/-- Engine rotator `FRotator(Pitch, Yaw, Roll)`. -/
structure FRotator where
  Pitch : ℚ
  Yaw : ℚ
  Roll : ℚ
  deriving DecidableEq, Repr

/-- Axis selector `EAxis`. -/
inductive EAxis where
  | X
  | Y
  | Z
  deriving DecidableEq, Repr

/-- The unit axis `FRotationMatrix(Rotation).GetUnitAxis(Axis)`, kept symbolic: the
engine computes it, the handlers only pass it on. -/
structure UnitAxis where
  Rotation : FRotator
  Axis : EAxis
  deriving DecidableEq, Repr

/-- The controller as far as `Move` reads it: its control rotation. -/
structure AController where
  ControlRotation : FRotator
  deriving DecidableEq, Repr

/-- The fields of `USpringArmComponent` the class writes. -/
structure USpringArmComponent where
  TargetArmLength : ℚ
  TargetOffset : FVector
  bUsePawnControlRotation : Bool
  deriving DecidableEq, Repr

/-- The fields of `UCharacterMovementComponent` the class writes. -/
structure UCharacterMovementComponent where
  bOrientRotationToMovement : Bool
  RotationRate : FRotator
  JumpZVelocity : ℚ
  AirControl : ℚ
  MaxWalkSpeed : ℚ
  MinAnalogWalkSpeed : ℚ
  BrakingDecelerationWalking : ℚ
  BrakingDecelerationFalling : ℚ
  deriving DecidableEq, Repr

/-- The lines the handlers write with `UE_LOG(LogTemp, Warning, ...)`. -/
inductive LogLine where
  | Healing (HealAmount : ℚ)
  | HealingArmor (HealAmount : ℚ)
  | TakingDamage (DamageAmount : ℚ)
  | ZoomingIn
  | StoppedZooming
  | PickedUpItem
  deriving DecidableEq, Repr

/-- One call from the character into the engine. -/
inductive EngineCall where
  | UE_LOG (line : LogLine)
  | AddMovementInput (WorldDirection : UnitAxis) (ScaleValue : ℚ)
  | AddControllerYawInput (Val : ℚ)
  | AddControllerPitchInput (Val : ℚ)
  deriving DecidableEq, Repr

/-! ## The character -/

/-- The member variables of `AActionRPGCharacter` (header lines 102-131), the
inherited `Controller` pointer, and the two subobjects the handlers reach. -/
structure AActionRPGCharacter where
  PlayerHealth : ℚ
  PlayerArmor : ℚ
  bIsOverlappingItem : Bool
  bIsZoomedIn : Bool
  CurrentLevel : Int
  UpgradePoints : Int
  StrengthValue : Int
  DexterityValue : Int
  IntellectValue : Int
  bHasArmor : Bool
  Controller : Option AController
  CameraBoom : Option USpringArmComponent
  CharacterMovement : Option UCharacterMovementComponent
  deriving DecidableEq, Repr

/-- The character together with the trace of calls it has made into the engine. -/
structure World where
  self : AActionRPGCharacter
  calls : List EngineCall
  deriving DecidableEq, Repr

/-- The constructor `AActionRPGCharacter::AActionRPGCharacter()`. `boom0` is the
spring arm as `CreateDefaultSubobject` returns it, before the constructor writes to
it. The movement component gets every modelled field assigned. The `Controller`
pointer is null until the engine possesses the pawn. -/
def AActionRPGCharacter.ctor (boom0 : USpringArmComponent) : AActionRPGCharacter where
  CharacterMovement := some
    { bOrientRotationToMovement := true
      RotationRate := ⟨0, 500, 0⟩
      JumpZVelocity := 700
      AirControl := 35 / 100
      MaxWalkSpeed := 500
      MinAnalogWalkSpeed := 20
      BrakingDecelerationWalking := 2000
      BrakingDecelerationFalling := 1500 }
  CameraBoom := some { boom0 with TargetArmLength := 400, bUsePawnControlRotation := true }
  Controller := none
  PlayerHealth := 1
  PlayerArmor := 1
  CurrentLevel := 1
  UpgradePoints := 5
  StrengthValue := 1
  DexterityValue := 1
  IntellectValue := 1
  bHasArmor := true
  bIsOverlappingItem := false
  bIsZoomedIn := false

/-- The world right after construction: the fresh character and an empty trace. -/
def fresh (boom0 : USpringArmComponent) : World :=
  { self := AActionRPGCharacter.ctor boom0, calls := [] }

/-- Appends one engine call to the trace. -/
def World.emit (w : World) (c : EngineCall) : World :=
  { w with calls := w.calls ++ [c] }

/-! ## Handlers -/

/-- Handler `AActionRPGCharacter::Move`. -/
def Move (w : World) (Value : FVector2D) : World :=
  let MovementVector := Value
  match w.self.Controller with
  | some Controller =>
    let Rotation := Controller.ControlRotation
    let YawRotation : FRotator := ⟨0, Rotation.Yaw, 0⟩
    let ForwardDirection : UnitAxis := ⟨YawRotation, EAxis.X⟩
    let RightDirection : UnitAxis := ⟨YawRotation, EAxis.Y⟩
    (w.emit (.AddMovementInput ForwardDirection MovementVector.Y)).emit
      (.AddMovementInput RightDirection MovementVector.X)
  | none => w

/-- Handler `AActionRPGCharacter::Look`. -/
def Look (w : World) (Value : FVector2D) : World :=
  let LookAxisVector := Value
  match w.self.Controller with
  | some _ =>
    (w.emit (.AddControllerYawInput LookAxisVector.X)).emit
      (.AddControllerPitchInput LookAxisVector.Y)
  | none => w

/-- Handler `AActionRPGCharacter::Sprint`: the movement component is dereferenced
without a null check, so a missing component gives no result. -/
def Sprint (w : World) : Option World :=
  match w.self.CharacterMovement with
  | some m => some { w with self := { w.self with
      CharacterMovement := some { m with MaxWalkSpeed := 1500 } } }
  | none => none

/-- Handler `AActionRPGCharacter::StopSprinting`: same dereference as `Sprint`. -/
def StopSprinting (w : World) : Option World :=
  match w.self.CharacterMovement with
  | some m => some { w with self := { w.self with
      CharacterMovement := some { m with MaxWalkSpeed := 600 } } }
  | none => none

/-- Method `AActionRPGCharacter::HealPlayer`. -/
def HealPlayer (w : World) (HealAmount : ℚ) : World :=
  let w := w.emit (.UE_LOG (.Healing HealAmount))
  let w := { w with self := { w.self with PlayerHealth := w.self.PlayerHealth + HealAmount } }
  if w.self.PlayerHealth > 1 then
    { w with self := { w.self with PlayerHealth := 1 } }
  else w

/-- Method `AActionRPGCharacter::HealArmor`. -/
def HealArmor (w : World) (HealAmount : ℚ) : World :=
  let w := w.emit (.UE_LOG (.HealingArmor HealAmount))
  let w := { w with self := { w.self with PlayerArmor := w.self.PlayerArmor + HealAmount } }
  let w := { w with self := { w.self with bHasArmor := true } }
  if w.self.PlayerArmor > 1 then
    { w with self := { w.self with PlayerArmor := 1 } }
  else w

/-- Method `AActionRPGCharacter::DamagePlayer`. -/
def DamagePlayer (w : World) (DamageAmount : ℚ) : World :=
  let w := w.emit (.UE_LOG (.TakingDamage DamageAmount))
  if w.self.bHasArmor then
    let w := { w with self := { w.self with PlayerArmor := w.self.PlayerArmor - DamageAmount } }
    if w.self.PlayerArmor < 0 then
      let w := { w with self := { w.self with bHasArmor := false } }
      let w := { w with self := { w.self with
        PlayerHealth := w.self.PlayerHealth + w.self.PlayerArmor } }
      { w with self := { w.self with PlayerArmor := 0 } }
    else w
  else
    let w := { w with self := { w.self with PlayerHealth := w.self.PlayerHealth - DamageAmount } }
    if w.self.PlayerHealth < 0 then
      { w with self := { w.self with PlayerHealth := 0 } }
    else w

/-- Handler `AActionRPGCharacter::ZoomIn`. -/
def ZoomIn (w : World) : World :=
  match w.self.CameraBoom with
  | some ThirdPersonCamera =>
    let w := w.emit (.UE_LOG .ZoomingIn)
    let ThirdPersonCamera := { ThirdPersonCamera with TargetArmLength := 150 }
    let ThirdPersonCamera := { ThirdPersonCamera with TargetOffset := ⟨0, 80, 70⟩ }
    let w := { w with self := { w.self with CameraBoom := some ThirdPersonCamera } }
    let w :=
      match w.self.CharacterMovement with
      | some characterMovement => { w with self := { w.self with
          CharacterMovement := some { characterMovement with MaxWalkSpeed := 300 } } }
      | none => w
    { w with self := { w.self with bIsZoomedIn := true } }
  | none => w

/-- Handler `AActionRPGCharacter::ZoomOut`. -/
def ZoomOut (w : World) : World :=
  match w.self.CameraBoom with
  | some ThirdPersonCamera =>
    let w := w.emit (.UE_LOG .StoppedZooming)
    let ThirdPersonCamera := { ThirdPersonCamera with TargetArmLength := 300 }
    let ThirdPersonCamera := { ThirdPersonCamera with TargetOffset := ⟨0, 0, 0⟩ }
    let w := { w with self := { w.self with CameraBoom := some ThirdPersonCamera } }
    let w :=
      match w.self.CharacterMovement with
      | some CharacterMovement => { w with self := { w.self with
          CharacterMovement := some { CharacterMovement with MaxWalkSpeed := 600 } } }
      | none => w
    { w with self := { w.self with bIsZoomedIn := false } }
  | none => w

/-- Handler `AActionRPGCharacter::EquipItem`. -/
def EquipItem (w : World) : World :=
  if w.self.bIsOverlappingItem then
    w.emit (.UE_LOG .PickedUpItem)
  else w

/-! ## Stat methods with rounded arithmetic

The stats are `float`s, so each `+=` and `-=` stores the rounded exact result. The
methods below are the same three methods with that rounding written `fl`; with
`fl = id` they are the exact methods above, with `fl = Float32.nearest` they are
the program on finite single-precision values. -/

/-- Nearest integer to `q`, a tie going to the even neighbour. -/
def roundTiesEven (q : ℚ) : ℤ :=
  if q - ⌊q⌋ < 1 / 2 then ⌊q⌋
  else if 1 / 2 < q - ⌊q⌋ then ⌊q⌋ + 1
  else if ⌊q⌋ % 2 = 0 then ⌊q⌋
  else ⌊q⌋ + 1

/-- Binary exponent of a single-precision value near `x`: the `e` with
`2 ^ e ≤ |x| < 2 ^ (e + 1)`, and -126 for everything smaller (subnormals). -/
def Float32.exponent (x : ℚ) : ℤ :=
  max (Int.log 2 |x|) (-126)

/-- Spacing of the single-precision values around `x` (24-bit significand). -/
def Float32.ulp (x : ℚ) : ℚ :=
  (2 : ℚ) ^ (Float32.exponent x - 23)

/-- Single-precision rounding to nearest, ties to even, of an exact result `x`.
Results beyond the largest finite value (infinities) and NaN are not modelled. -/
def Float32.nearest (x : ℚ) : ℚ :=
  roundTiesEven (x / Float32.ulp x) * Float32.ulp x

/-- Method `AActionRPGCharacter::HealPlayer`, the `+=` rounded by `fl`. -/
def Rounded.HealPlayer (fl : ℚ → ℚ) (w : World) (HealAmount : ℚ) : World :=
  let w := w.emit (.UE_LOG (.Healing HealAmount))
  let w := { w with self := { w.self with
    PlayerHealth := fl (w.self.PlayerHealth + HealAmount) } }
  if w.self.PlayerHealth > 1 then
    { w with self := { w.self with PlayerHealth := 1 } }
  else w

/-- Method `AActionRPGCharacter::HealArmor`, the `+=` rounded by `fl`. -/
def Rounded.HealArmor (fl : ℚ → ℚ) (w : World) (HealAmount : ℚ) : World :=
  let w := w.emit (.UE_LOG (.HealingArmor HealAmount))
  let w := { w with self := { w.self with
    PlayerArmor := fl (w.self.PlayerArmor + HealAmount) } }
  let w := { w with self := { w.self with bHasArmor := true } }
  if w.self.PlayerArmor > 1 then
    { w with self := { w.self with PlayerArmor := 1 } }
  else w

/-- Method `AActionRPGCharacter::DamagePlayer`, each `-=` and `+=` rounded by `fl`. -/
def Rounded.DamagePlayer (fl : ℚ → ℚ) (w : World) (DamageAmount : ℚ) : World :=
  let w := w.emit (.UE_LOG (.TakingDamage DamageAmount))
  if w.self.bHasArmor then
    let w := { w with self := { w.self with
      PlayerArmor := fl (w.self.PlayerArmor - DamageAmount) } }
    if w.self.PlayerArmor < 0 then
      let w := { w with self := { w.self with bHasArmor := false } }
      let w := { w with self := { w.self with
        PlayerHealth := fl (w.self.PlayerHealth + w.self.PlayerArmor) } }
      { w with self := { w.self with PlayerArmor := 0 } }
    else w
  else
    let w := { w with self := { w.self with
      PlayerHealth := fl (w.self.PlayerHealth - DamageAmount) } }
    if w.self.PlayerHealth < 0 then
      { w with self := { w.self with PlayerHealth := 0 } }
    else w

/-! ## Sequences of calls -/

/-- One call of a stat method, with its amount. -/
inductive StatCall where
  | HealPlayer (HealAmount : ℚ)
  | HealArmor (HealAmount : ℚ)
  | DamagePlayer (DamageAmount : ℚ)
  deriving DecidableEq, Repr

/-- The amount a stat call carries. -/
def StatCall.amount : StatCall → ℚ
  | .HealPlayer x => x
  | .HealArmor x => x
  | .DamagePlayer x => x

/-- Performs one stat call. -/
def StatCall.run (w : World) : StatCall → World
  | .HealPlayer x => ActionRPG.HealPlayer w x
  | .HealArmor x => ActionRPG.HealArmor w x
  | .DamagePlayer x => ActionRPG.DamagePlayer w x

/-- Performs a sequence of stat calls, first call first. -/
def runStats (w : World) (cs : List StatCall) : World :=
  cs.foldl StatCall.run w

/-- The four input events bound to sprinting and zooming. -/
inductive InputEvent where
  | Sprint
  | StopSprinting
  | ZoomIn
  | ZoomOut
  deriving DecidableEq, Repr

/-- Dispatches one input event to its handler. -/
def InputEvent.run (w : World) : InputEvent → Option World
  | .Sprint => ActionRPG.Sprint w
  | .StopSprinting => ActionRPG.StopSprinting w
  | .ZoomIn => some (ActionRPG.ZoomIn w)
  | .ZoomOut => some (ActionRPG.ZoomOut w)

/-- Dispatches a sequence of input events, first event first; stops with `none` at
a null dereference. -/
def runInputs (w : World) : List InputEvent → Option World
  | [] => some w
  | e :: es => (InputEvent.run w e).bind fun w1 => runInputs w1 es

/-! ## Vocabulary of the properties -/

/-- True for a `DamagePlayer` call that, in world `w`, breaks the armor with an
overflow larger than the health that is left. -/
def StatCall.overkill (w : World) : StatCall → Bool
  | .DamagePlayer d =>
    w.self.bHasArmor && decide (w.self.PlayerHealth + (w.self.PlayerArmor - d) < 0)
  | _ => false

/-- No call of the sequence, performed from `w` on, is an overkill. -/
def noOverkill (w : World) : List StatCall → Bool
  | [] => true
  | c :: cs => !(c.overkill w) && noOverkill (c.run w) cs

/-- The walk speed the property table gives for each event: Sprint 1500,
StopSprinting 600, ZoomIn 300, ZoomOut 600. -/
def InputEvent.walkSpeed : InputEvent → ℚ
  | .Sprint => 1500
  | .StopSprinting => 600
  | .ZoomIn => 300
  | .ZoomOut => 600

/-- The most recent zoom event of a sequence, if it has one. -/
def lastZoom (es : List InputEvent) : Option InputEvent :=
  es.foldl (fun acc e =>
    match e with
    | .ZoomIn => some .ZoomIn
    | .ZoomOut => some .ZoomOut
    | _ => acc) none

/-- A spring arm with the engine's stock values, for concrete runs. -/
def stockSpringArm : USpringArmComponent :=
  { TargetArmLength := 300, TargetOffset := ⟨0, 0, 0⟩, bUsePawnControlRotation := false }

/-- A possessed character: the fresh one with a controller looking along yaw 90. -/
def possessed : World :=
  { fresh stockSpringArm with
    self := { (fresh stockSpringArm).self with Controller := some ⟨⟨0, 90, 0⟩⟩ } }

/-- The fresh character after `DamagePlayer(1)` and `HealArmor(2^-30)` in single
precision: health 1, armor 2^-30, armor flag set. -/
def thinArmor : World :=
  Rounded.HealArmor Float32.nearest
    (Rounded.DamagePlayer Float32.nearest (fresh stockSpringArm) 1) (1 / 2 ^ 30)

/-- The fresh character after `DamagePlayer(3/2)` in single precision: health 1/2,
armor 0, armor flag cleared. -/
def halfHealth : World :=
  Rounded.DamagePlayer Float32.nearest (fresh stockSpringArm) (3 / 2)

/-- The fresh character after `DamagePlayer(1/2)` in single precision: health 1,
armor 1/2, armor flag set. -/
def halfArmor : World :=
  Rounded.DamagePlayer Float32.nearest (fresh stockSpringArm) (1 / 2)

/-! ## What each stat method does to the character -/

theorem HealPlayer_self (w : World) (x : ℚ) :
    (HealPlayer w x).self =
      { w.self with PlayerHealth := min (w.self.PlayerHealth + x) 1 } := by
  unfold HealPlayer World.emit
  by_cases h : w.self.PlayerHealth + x > 1
  · simp [h, min_eq_right (le_of_lt h)]
  · simp [h, min_eq_left (not_lt.mp h)]

theorem HealArmor_self (w : World) (x : ℚ) :
    (HealArmor w x).self =
      { w.self with PlayerArmor := min (w.self.PlayerArmor + x) 1, bHasArmor := true } := by
  unfold HealArmor World.emit
  by_cases h : w.self.PlayerArmor + x > 1
  · simp [h, min_eq_right (le_of_lt h)]
  · simp [h, min_eq_left (not_lt.mp h)]

theorem DamagePlayer_self_armored (w : World) (d : ℚ) (ha : w.self.bHasArmor = true) :
    (DamagePlayer w d).self =
      if w.self.PlayerArmor - d < 0 then
        { w.self with
          bHasArmor := false
          PlayerHealth := w.self.PlayerHealth + (w.self.PlayerArmor - d)
          PlayerArmor := 0 }
      else { w.self with PlayerArmor := w.self.PlayerArmor - d } := by
  unfold DamagePlayer World.emit
  by_cases h : w.self.PlayerArmor - d < 0
  · simp [ha, h]
  · simp [ha, h]

theorem DamagePlayer_self_unarmored (w : World) (d : ℚ) (ha : w.self.bHasArmor = false) :
    (DamagePlayer w d).self =
      { w.self with PlayerHealth := max (w.self.PlayerHealth - d) 0 } := by
  unfold DamagePlayer World.emit
  by_cases h : w.self.PlayerHealth - d < 0
  · simp [ha, h, max_eq_right (le_of_lt h)]
  · simp [ha, h, max_eq_left (not_lt.mp h)]

/-! ## Invariants along sequences of stat calls -/

theorem StatCall.run_bounds (w : World) (c : StatCall) (hc : 0 ≤ c.amount)
    (ha0 : 0 ≤ w.self.PlayerArmor) (ha1 : w.self.PlayerArmor ≤ 1)
    (hh1 : w.self.PlayerHealth ≤ 1) :
    0 ≤ (c.run w).self.PlayerArmor ∧ (c.run w).self.PlayerArmor ≤ 1 ∧
      (c.run w).self.PlayerHealth ≤ 1 := by
  cases c with
  | HealPlayer x =>
    simp only [StatCall.run, HealPlayer_self]
    exact ⟨ha0, ha1, min_le_right _ _⟩
  | HealArmor x =>
    simp only [StatCall.run, HealArmor_self, StatCall.amount] at hc ⊢
    exact ⟨le_min (by linarith) (by norm_num), min_le_right _ _, hh1⟩
  | DamagePlayer d =>
    simp only [StatCall.amount] at hc
    simp only [StatCall.run]
    cases ha : w.self.bHasArmor with
    | true =>
      rw [DamagePlayer_self_armored w d ha]
      split_ifs with h
      · exact ⟨le_refl _, by norm_num, by simp only; linarith⟩
      · exact ⟨by simp only; linarith, by simp only; linarith, hh1⟩
    | false =>
      rw [DamagePlayer_self_unarmored w d ha]
      exact ⟨ha0, ha1, max_le (by linarith) (by norm_num)⟩

theorem runStats_bounds (cs : List StatCall) (w : World) (hnn : ∀ c ∈ cs, 0 ≤ c.amount)
    (ha0 : 0 ≤ w.self.PlayerArmor) (ha1 : w.self.PlayerArmor ≤ 1)
    (hh1 : w.self.PlayerHealth ≤ 1) :
    0 ≤ (runStats w cs).self.PlayerArmor ∧ (runStats w cs).self.PlayerArmor ≤ 1 ∧
      (runStats w cs).self.PlayerHealth ≤ 1 := by
  induction cs generalizing w with
  | nil => exact ⟨ha0, ha1, hh1⟩
  | cons c cs ih =>
    obtain ⟨h0, h1, h2⟩ :=
      StatCall.run_bounds w c (hnn c (List.mem_cons_self _ _)) ha0 ha1 hh1
    exact ih (c.run w) (fun c1 hc1 => hnn c1 (List.mem_cons_of_mem _ hc1)) h0 h1 h2

theorem StatCall.run_health_nonneg (w : World) (c : StatCall) (hc : 0 ≤ c.amount)
    (hk : c.overkill w = false) (hh0 : 0 ≤ w.self.PlayerHealth) :
    0 ≤ (c.run w).self.PlayerHealth := by
  cases c with
  | HealPlayer x =>
    simp only [StatCall.run, HealPlayer_self, StatCall.amount] at hc ⊢
    exact le_min (by linarith) (by norm_num)
  | HealArmor x =>
    simp only [StatCall.run, HealArmor_self]
    exact hh0
  | DamagePlayer d =>
    simp only [StatCall.run]
    cases ha : w.self.bHasArmor with
    | true =>
      rw [DamagePlayer_self_armored w d ha]
      simp only [StatCall.overkill, ha, Bool.true_and, decide_eq_false_iff_not, not_lt] at hk
      split_ifs with h
      · exact hk
      · exact hh0
    | false =>
      rw [DamagePlayer_self_unarmored w d ha]
      exact le_max_right _ _

theorem runStats_health_nonneg (cs : List StatCall) (w : World)
    (hnn : ∀ c ∈ cs, 0 ≤ c.amount) (hk : noOverkill w cs = true)
    (hh0 : 0 ≤ w.self.PlayerHealth) :
    0 ≤ (runStats w cs).self.PlayerHealth := by
  induction cs generalizing w with
  | nil => exact hh0
  | cons c cs ih =>
    simp only [noOverkill, Bool.and_eq_true, Bool.not_eq_true'] at hk
    exact ih (c.run w) (fun c1 hc1 => hnn c1 (List.mem_cons_of_mem _ hc1)) hk.2
      (StatCall.run_health_nonneg w c (hnn c (List.mem_cons_self _ _)) hk.1 hh0)

theorem StatCall.run_noArmor (w : World) (c : StatCall)
    (hw : w.self.bHasArmor = false → w.self.PlayerArmor = 0) :
    (c.run w).self.bHasArmor = false → (c.run w).self.PlayerArmor = 0 := by
  cases c with
  | HealPlayer x =>
    simp only [StatCall.run, HealPlayer_self]
    exact hw
  | HealArmor x =>
    simp only [StatCall.run, HealArmor_self]
    intro h
    exact absurd h (by decide)
  | DamagePlayer d =>
    simp only [StatCall.run]
    cases ha : w.self.bHasArmor with
    | true =>
      rw [DamagePlayer_self_armored w d ha]
      split_ifs with h
      · intro _
        rfl
      · intro h1
        simp only [ha] at h1
        exact absurd h1 (by decide)
    | false =>
      rw [DamagePlayer_self_unarmored w d ha]
      intro _
      exact hw ha

theorem runStats_noArmor (cs : List StatCall) (w : World)
    (hw : w.self.bHasArmor = false → w.self.PlayerArmor = 0) :
    (runStats w cs).self.bHasArmor = false → (runStats w cs).self.PlayerArmor = 0 := by
  induction cs generalizing w with
  | nil => exact hw
  | cons c cs ih => exact ih (c.run w) (StatCall.run_noArmor w c hw)

/-! ## Bounds on health and armor -/

/-- C1, as stated, fails: with amounts of any sign the stats leave [0,1]. From the
fresh character `HealPlayer(-2)` gives health -1, `HealArmor(-2)` gives armor -1
and `DamagePlayer(-5)` gives armor 6, so not every sequence of calls keeps both
stats in [0,1]. -/
theorem stats_leave_unit_interval_on_negative_amounts :
    (runStats (fresh stockSpringArm) [.HealPlayer (-2)]).self.PlayerHealth = -1 ∧
    (runStats (fresh stockSpringArm) [.HealArmor (-2)]).self.PlayerArmor = -1 ∧
    (runStats (fresh stockSpringArm) [.DamagePlayer (-5)]).self.PlayerArmor = 6 ∧
    ¬ ∀ cs : List StatCall,
      (0 ≤ (runStats (fresh stockSpringArm) cs).self.PlayerHealth ∧
        (runStats (fresh stockSpringArm) cs).self.PlayerHealth ≤ 1) ∧
      (0 ≤ (runStats (fresh stockSpringArm) cs).self.PlayerArmor ∧
        (runStats (fresh stockSpringArm) cs).self.PlayerArmor ≤ 1) := by
  have h1 : (runStats (fresh stockSpringArm) [.HealPlayer (-2)]).self.PlayerHealth = -1 := by
    simp only [runStats, List.foldl, StatCall.run, HealPlayer_self]
    norm_num [fresh, AActionRPGCharacter.ctor]
  have h2 : (runStats (fresh stockSpringArm) [.HealArmor (-2)]).self.PlayerArmor = -1 := by
    simp only [runStats, List.foldl, StatCall.run, HealArmor_self]
    norm_num [fresh, AActionRPGCharacter.ctor]
  have h3 : (runStats (fresh stockSpringArm) [.DamagePlayer (-5)]).self.PlayerArmor = 6 := by
    simp only [runStats, List.foldl, StatCall.run]
    rw [DamagePlayer_self_armored _ _ rfl]
    norm_num [fresh, AActionRPGCharacter.ctor]
  refine ⟨h1, h2, h3, fun hall => ?_⟩
  have h := (hall [.HealPlayer (-2)]).1.1
  rw [h1] at h
  norm_num at h

/-- C1, amended: from the fresh character, after every finite sequence of
HealPlayer, HealArmor and DamagePlayer calls whose amounts are all non-negative,
PlayerArmor lies in [0,1] and PlayerHealth is at most 1; PlayerHealth is also at
least 0 when no DamagePlayer call of the sequence breaks the armor with an overflow
larger than the health left at that moment. -/
theorem stats_bounded_on_nonneg_amounts (boom0 : USpringArmComponent)
    (cs : List StatCall) (hnn : ∀ c ∈ cs, 0 ≤ c.amount) :
    0 ≤ (runStats (fresh boom0) cs).self.PlayerArmor ∧
    (runStats (fresh boom0) cs).self.PlayerArmor ≤ 1 ∧
    (runStats (fresh boom0) cs).self.PlayerHealth ≤ 1 ∧
    (noOverkill (fresh boom0) cs = true →
      0 ≤ (runStats (fresh boom0) cs).self.PlayerHealth) := by
  have hb := runStats_bounds cs (fresh boom0) hnn
    (by norm_num [fresh, AActionRPGCharacter.ctor])
    (by norm_num [fresh, AActionRPGCharacter.ctor])
    (by norm_num [fresh, AActionRPGCharacter.ctor])
  exact ⟨hb.1, hb.2.1, hb.2.2, fun hk =>
    runStats_health_nonneg cs (fresh boom0) hnn hk
      (by norm_num [fresh, AActionRPGCharacter.ctor])⟩

/-- C2 fails on the code: a single `DamagePlayer(5)` on the fresh character takes
the armor-breaking branch, which adds the overflow -4 to the health without
clamping, and leaves PlayerHealth at -3 (with armor 0 and bHasArmor false). -/
theorem DamagePlayer_overkill_health_negative (boom0 : USpringArmComponent) :
    0 ≤ (fresh boom0).self.PlayerHealth ∧ (fresh boom0).self.PlayerHealth ≤ 1 ∧
    0 ≤ (fresh boom0).self.PlayerArmor ∧ (fresh boom0).self.PlayerArmor ≤ 1 ∧
    (DamagePlayer (fresh boom0) 5).self.PlayerHealth = -3 ∧
    (DamagePlayer (fresh boom0) 5).self.PlayerArmor = 0 ∧
    (DamagePlayer (fresh boom0) 5).self.bHasArmor = false := by
  rw [DamagePlayer_self_armored _ _ rfl]
  norm_num [fresh, AActionRPGCharacter.ctor]

/-- C3: from the fresh character, after every finite sequence of HealPlayer,
HealArmor and DamagePlayer calls whose amounts are all non-negative, PlayerArmor
lies in [0,1]. -/
theorem armor_in_unit_interval (boom0 : USpringArmComponent) (cs : List StatCall)
    (hnn : ∀ c ∈ cs, 0 ≤ c.amount) :
    0 ≤ (runStats (fresh boom0) cs).self.PlayerArmor ∧
    (runStats (fresh boom0) cs).self.PlayerArmor ≤ 1 := by
  have hb := runStats_bounds cs (fresh boom0) hnn
    (by norm_num [fresh, AActionRPGCharacter.ctor])
    (by norm_num [fresh, AActionRPGCharacter.ctor])
    (by norm_num [fresh, AActionRPGCharacter.ctor])
  exact ⟨hb.1, hb.2.1⟩

/-- A run of the amended C1: breaking the armor with `DamagePlayer(3/2)` and then
healing by 1/4 keeps both stats in [0,1]. -/
theorem stats_bounded_on_nonneg_amounts_witness :
    (∀ c ∈ [StatCall.DamagePlayer (3 / 2), StatCall.HealPlayer (1 / 4)], 0 ≤ c.amount) ∧
    noOverkill (fresh stockSpringArm)
      [StatCall.DamagePlayer (3 / 2), StatCall.HealPlayer (1 / 4)] = true ∧
    0 ≤ (runStats (fresh stockSpringArm)
      [StatCall.DamagePlayer (3 / 2), StatCall.HealPlayer (1 / 4)]).self.PlayerArmor ∧
    (runStats (fresh stockSpringArm)
      [StatCall.DamagePlayer (3 / 2), StatCall.HealPlayer (1 / 4)]).self.PlayerArmor ≤ 1 ∧
    (runStats (fresh stockSpringArm)
      [StatCall.DamagePlayer (3 / 2), StatCall.HealPlayer (1 / 4)]).self.PlayerHealth ≤ 1 ∧
    0 ≤ (runStats (fresh stockSpringArm)
      [StatCall.DamagePlayer (3 / 2), StatCall.HealPlayer (1 / 4)]).self.PlayerHealth := by
  have hnn : ∀ c ∈ [StatCall.DamagePlayer (3 / 2), StatCall.HealPlayer (1 / 4)],
      0 ≤ c.amount := by
    simp [StatCall.amount]
    norm_num
  have hk : noOverkill (fresh stockSpringArm)
      [StatCall.DamagePlayer (3 / 2), StatCall.HealPlayer (1 / 4)] = true := by
    simp [noOverkill, StatCall.overkill, fresh, AActionRPGCharacter.ctor]
    norm_num
  have h := stats_bounded_on_nonneg_amounts stockSpringArm
    [StatCall.DamagePlayer (3 / 2), StatCall.HealPlayer (1 / 4)] hnn
  exact ⟨hnn, hk, h.1, h.2.1, h.2.2.1, h.2.2.2 hk⟩

/-- A run of C3: damage 1/4, armor heal 2, damage 3 keeps the armor in [0,1]. -/
theorem armor_in_unit_interval_witness :
    (∀ c ∈ [StatCall.DamagePlayer (1 / 4), StatCall.HealArmor 2, StatCall.DamagePlayer 3],
      0 ≤ c.amount) ∧
    0 ≤ (runStats (fresh stockSpringArm)
      [StatCall.DamagePlayer (1 / 4), StatCall.HealArmor 2,
        StatCall.DamagePlayer 3]).self.PlayerArmor ∧
    (runStats (fresh stockSpringArm)
      [StatCall.DamagePlayer (1 / 4), StatCall.HealArmor 2,
        StatCall.DamagePlayer 3]).self.PlayerArmor ≤ 1 := by
  have hnn : ∀ c ∈ [StatCall.DamagePlayer (1 / 4), StatCall.HealArmor 2,
      StatCall.DamagePlayer 3], 0 ≤ c.amount := by
    simp [StatCall.amount]
  exact ⟨hnn, armor_in_unit_interval stockSpringArm _ hnn⟩

/-! ## Armor before health -/

/-- C4: in every state reachable from the fresh character by HealPlayer, HealArmor
and DamagePlayer calls (any amounts), a DamagePlayer call that makes PlayerHealth
strictly smaller leaves PlayerArmor at exactly 0. -/
theorem armor_depleted_when_health_drops (boom0 : USpringArmComponent)
    (cs : List StatCall) (d : ℚ)
    (hdrop : (DamagePlayer (runStats (fresh boom0) cs) d).self.PlayerHealth <
      (runStats (fresh boom0) cs).self.PlayerHealth) :
    (DamagePlayer (runStats (fresh boom0) cs) d).self.PlayerArmor = 0 := by
  have hinv := runStats_noArmor cs (fresh boom0) (fun h => by
    simp [fresh, AActionRPGCharacter.ctor] at h)
  generalize runStats (fresh boom0) cs = w at hdrop hinv ⊢
  cases ha : w.self.bHasArmor with
  | true =>
    rw [DamagePlayer_self_armored w d ha] at hdrop ⊢
    split_ifs at hdrop ⊢ with h
    · rfl
    · exact absurd hdrop (lt_irrefl _)
  | false =>
    rw [DamagePlayer_self_unarmored w d ha]
    exact hinv ha

/-- A run of C4: `DamagePlayer(2)` on the fresh character lowers the health from
1 to 0 and the armor is 0 afterwards. -/
theorem armor_depleted_when_health_drops_witness :
    (DamagePlayer (runStats (fresh stockSpringArm) []) 2).self.PlayerHealth <
      (runStats (fresh stockSpringArm) []).self.PlayerHealth ∧
    (DamagePlayer (runStats (fresh stockSpringArm) []) 2).self.PlayerArmor = 0 := by
  have hdrop : (DamagePlayer (runStats (fresh stockSpringArm) []) 2).self.PlayerHealth <
      (runStats (fresh stockSpringArm) []).self.PlayerHealth := by
    simp only [runStats, List.foldl]
    rw [DamagePlayer_self_armored _ _ rfl]
    norm_num [fresh, AActionRPGCharacter.ctor]
  exact ⟨hdrop, armor_depleted_when_health_drops stockSpringArm [] 2 hdrop⟩

/-! ## Facts about the rounding -/

theorem roundTiesEven_intCast (n : ℤ) : roundTiesEven (n : ℚ) = n := by
  simp [roundTiesEven]

theorem floor_le_roundTiesEven (q : ℚ) : ⌊q⌋ ≤ roundTiesEven q := by
  unfold roundTiesEven
  split_ifs <;> omega

theorem roundTiesEven_le_floor_add_one (q : ℚ) : roundTiesEven q ≤ ⌊q⌋ + 1 := by
  unfold roundTiesEven
  split_ifs <;> omega

theorem roundTiesEven_mono : Monotone roundTiesEven := by
  intro p q hpq
  have hf : ⌊p⌋ ≤ ⌊q⌋ := Int.floor_mono hpq
  rcases lt_or_eq_of_le hf with hlt | heq
  · calc roundTiesEven p ≤ ⌊p⌋ + 1 := roundTiesEven_le_floor_add_one p
      _ ≤ ⌊q⌋ := hlt
      _ ≤ roundTiesEven q := floor_le_roundTiesEven q
  · have hfrac : p - ⌊p⌋ ≤ q - ⌊q⌋ := by
      rw [heq]
      linarith
    unfold roundTiesEven
    rw [heq] at hfrac ⊢
    split_ifs <;> first | omega | (exfalso; linarith)

theorem Float32.ulp_pos (x : ℚ) : 0 < Float32.ulp x := by
  unfold Float32.ulp
  positivity

theorem Float32.nearest_nonneg (x : ℚ) (hx : 0 ≤ x) : 0 ≤ Float32.nearest x := by
  unfold Float32.nearest
  have h0 : (0 : ℚ) ≤ x / Float32.ulp x := div_nonneg hx (Float32.ulp_pos x).le
  have h1 : (0 : ℤ) ≤ roundTiesEven (x / Float32.ulp x) := by
    have := roundTiesEven_mono h0
    rwa [show ((0 : ℚ)) = ((0 : ℤ) : ℚ) by simp, roundTiesEven_intCast] at this
  exact mul_nonneg (by exact_mod_cast h1) (Float32.ulp_pos x).le

theorem Float32.nearest_nonpos (x : ℚ) (hx : x ≤ 0) : Float32.nearest x ≤ 0 := by
  unfold Float32.nearest
  have h0 : x / Float32.ulp x ≤ (0 : ℚ) := div_nonpos_of_nonpos_of_nonneg hx (Float32.ulp_pos x).le
  have h1 : roundTiesEven (x / Float32.ulp x) ≤ (0 : ℤ) := by
    have := roundTiesEven_mono h0
    rwa [show ((0 : ℚ)) = ((0 : ℤ) : ℚ) by simp, roundTiesEven_intCast] at this
  exact mul_nonpos_of_nonpos_of_nonneg (by exact_mod_cast h1) (Float32.ulp_pos x).le

theorem Float32.exponent_ge (x : ℚ) : -126 ≤ Float32.exponent x :=
  le_max_right _ _

theorem Float32.two_pow_24_mul_ulp (x : ℚ) :
    (2 : ℚ) ^ 24 * Float32.ulp x = 2 ^ (Float32.exponent x + 1) := by
  unfold Float32.ulp
  rw [show ((2 : ℚ) ^ 24) = (2 : ℚ) ^ (24 : ℤ) by norm_num, ← zpow_add₀ (by norm_num)]
  congr 1
  ring

theorem Float32.two_pow_23_mul_ulp (x : ℚ) :
    (2 : ℚ) ^ 23 * Float32.ulp x = 2 ^ (Float32.exponent x) := by
  unfold Float32.ulp
  rw [show ((2 : ℚ) ^ 23) = (2 : ℚ) ^ (23 : ℤ) by norm_num, ← zpow_add₀ (by norm_num)]
  congr 1
  ring

theorem Float32.abs_lt_zpow (x : ℚ) : |x| < 2 ^ (Float32.exponent x + 1) := by
  have h := Int.lt_zpow_succ_log_self (b := 2) (by norm_num) |x|
  have hle : Int.log 2 |x| + 1 ≤ Float32.exponent x + 1 := by
    have := le_max_left (Int.log 2 |x|) (-126)
    unfold Float32.exponent
    omega
  calc |x| < ((2 : ℕ) : ℚ) ^ (Int.log 2 |x| + 1) := h
    _ = (2 : ℚ) ^ (Int.log 2 |x| + 1) := by norm_num
    _ ≤ 2 ^ (Float32.exponent x + 1) := zpow_le_zpow_right₀ (by norm_num) hle

theorem Float32.zpow_le_abs (x : ℚ) (hx : x ≠ 0) (he : -126 < Float32.exponent x) :
    (2 : ℚ) ^ (Float32.exponent x) ≤ |x| := by
  have hlog : Float32.exponent x = Int.log 2 |x| := by
    unfold Float32.exponent at he ⊢
    rcases le_total (Int.log 2 |x|) (-126) with h | h
    · rw [max_eq_right h] at he
      omega
    · exact max_eq_left h
  rw [hlog]
  have h := Int.zpow_log_le_self (b := 2) (r := |x|) (by norm_num) (abs_pos.mpr hx)
  simpa using h

theorem Float32.exponent_mono_abs (x y : ℚ) (hx : x ≠ 0) (hxy : |x| ≤ |y|) :
    Float32.exponent x ≤ Float32.exponent y :=
  max_le_max (Int.log_mono_right (abs_pos.mpr hx) hxy) le_rfl

theorem Float32.nearest_le_zpow (x : ℚ) :
    Float32.nearest x ≤ 2 ^ (Float32.exponent x + 1) := by
  have hu := Float32.ulp_pos x
  have hx : x ≤ 2 ^ 24 * Float32.ulp x := by
    rw [Float32.two_pow_24_mul_ulp]
    exact (le_abs_self x).trans (Float32.abs_lt_zpow x).le
  have hq : x / Float32.ulp x ≤ ((2 ^ 24 : ℤ) : ℚ) := by
    rw [div_le_iff₀ hu]
    simpa using hx
  have hr := roundTiesEven_mono hq
  rw [roundTiesEven_intCast] at hr
  have hr1 : (roundTiesEven (x / Float32.ulp x) : ℚ) ≤ 2 ^ 24 := by exact_mod_cast hr
  rw [← Float32.two_pow_24_mul_ulp]
  exact mul_le_mul_of_nonneg_right hr1 hu.le

theorem Float32.neg_zpow_le_nearest (x : ℚ) :
    -(2 ^ (Float32.exponent x + 1)) ≤ Float32.nearest x := by
  have hu := Float32.ulp_pos x
  have hx : -(2 ^ 24 * Float32.ulp x) ≤ x := by
    rw [Float32.two_pow_24_mul_ulp]
    have := (neg_abs_le x)
    have := (Float32.abs_lt_zpow x).le
    linarith
  have hq : ((-(2 ^ 24) : ℤ) : ℚ) ≤ x / Float32.ulp x := by
    rw [le_div_iff₀ hu]
    push_cast
    linarith
  have hr := roundTiesEven_mono hq
  rw [roundTiesEven_intCast] at hr
  have hr1 : -(2 ^ 24 : ℚ) ≤ (roundTiesEven (x / Float32.ulp x) : ℚ) := by exact_mod_cast hr
  rw [← Float32.two_pow_24_mul_ulp]
  have := mul_le_mul_of_nonneg_right hr1 hu.le
  unfold Float32.nearest
  linarith

theorem Float32.zpow_le_nearest (x : ℚ) (hx : 0 < x) (he : -126 < Float32.exponent x) :
    2 ^ (Float32.exponent x) ≤ Float32.nearest x := by
  have hu := Float32.ulp_pos x
  have h1 : 2 ^ 23 * Float32.ulp x ≤ x := by
    rw [Float32.two_pow_23_mul_ulp]
    have := Float32.zpow_le_abs x hx.ne' he
    rwa [abs_of_pos hx] at this
  have hq : ((2 ^ 23 : ℤ) : ℚ) ≤ x / Float32.ulp x := by
    rw [le_div_iff₀ hu]
    simpa using h1
  have hr := roundTiesEven_mono hq
  rw [roundTiesEven_intCast] at hr
  have hr1 : (2 ^ 23 : ℚ) ≤ (roundTiesEven (x / Float32.ulp x) : ℚ) := by exact_mod_cast hr
  rw [← Float32.two_pow_23_mul_ulp]
  exact mul_le_mul_of_nonneg_right hr1 hu.le

theorem Float32.nearest_le_neg_zpow (x : ℚ) (hx : x < 0) (he : -126 < Float32.exponent x) :
    Float32.nearest x ≤ -(2 ^ (Float32.exponent x)) := by
  have hu := Float32.ulp_pos x
  have h1 : x ≤ -(2 ^ 23 * Float32.ulp x) := by
    rw [Float32.two_pow_23_mul_ulp]
    have := Float32.zpow_le_abs x hx.ne he
    rw [abs_of_neg hx] at this
    linarith
  have hq : x / Float32.ulp x ≤ ((-(2 ^ 23) : ℤ) : ℚ) := by
    rw [div_le_iff₀ hu]
    push_cast
    linarith
  have hr := roundTiesEven_mono hq
  rw [roundTiesEven_intCast] at hr
  have hr1 : (roundTiesEven (x / Float32.ulp x) : ℚ) ≤ -(2 ^ 23 : ℚ) := by exact_mod_cast hr
  rw [← Float32.two_pow_23_mul_ulp]
  have := mul_le_mul_of_nonneg_right hr1 hu.le
  unfold Float32.nearest
  linarith

theorem Float32.nearest_mono_of_exponent_eq (x y : ℚ) (hxy : x ≤ y)
    (he : Float32.exponent x = Float32.exponent y) :
    Float32.nearest x ≤ Float32.nearest y := by
  have hu : Float32.ulp x = Float32.ulp y := by
    unfold Float32.ulp
    rw [he]
  unfold Float32.nearest
  rw [hu]
  have hq : x / Float32.ulp y ≤ y / Float32.ulp y :=
    div_le_div_of_nonneg_right hxy (Float32.ulp_pos y).le
  have hr := roundTiesEven_mono hq
  exact mul_le_mul_of_nonneg_right (by exact_mod_cast hr) (Float32.ulp_pos y).le

theorem Float32.nearest_mono : Monotone Float32.nearest := by
  intro x y hxy
  rcases lt_trichotomy 0 x with hx | hx | hx
  · have hy : 0 < y := lt_of_lt_of_le hx hxy
    have hE : Float32.exponent x ≤ Float32.exponent y :=
      Float32.exponent_mono_abs x y hx.ne' (by rwa [abs_of_pos hx, abs_of_pos hy])
    rcases lt_or_eq_of_le hE with hlt | heq
    · have hy1 : -126 < Float32.exponent y := lt_of_le_of_lt (Float32.exponent_ge x) hlt
      calc Float32.nearest x ≤ 2 ^ (Float32.exponent x + 1) := Float32.nearest_le_zpow x
        _ ≤ 2 ^ (Float32.exponent y) := zpow_le_zpow_right₀ (by norm_num) hlt
        _ ≤ Float32.nearest y := Float32.zpow_le_nearest y hy hy1
    · exact Float32.nearest_mono_of_exponent_eq x y hxy heq
  · subst hx
    exact (Float32.nearest_nonpos 0 le_rfl).trans (Float32.nearest_nonneg y hxy)
  · rcases le_or_lt 0 y with hy | hy
    · exact (Float32.nearest_nonpos x hx.le).trans (Float32.nearest_nonneg y hy)
    · have hE : Float32.exponent y ≤ Float32.exponent x :=
        Float32.exponent_mono_abs y x hy.ne (by rw [abs_of_neg hx, abs_of_neg hy]; linarith)
      rcases lt_or_eq_of_le hE with hlt | heq
      · have hx1 : -126 < Float32.exponent x := lt_of_le_of_lt (Float32.exponent_ge y) hlt
        have h1 := Float32.nearest_le_neg_zpow x hx hx1
        have h2 := Float32.neg_zpow_le_nearest y
        have h3 : (2 : ℚ) ^ (Float32.exponent y + 1) ≤ 2 ^ (Float32.exponent x) :=
          zpow_le_zpow_right₀ (by norm_num) hlt
        linarith
      · exact Float32.nearest_mono_of_exponent_eq x y hxy heq.symm

theorem Float32.nearest_eq_of (x : ℚ) (e n : ℤ) (hx : 0 < |x|)
    (h1 : (2 : ℚ) ^ e ≤ |x|) (h2 : |x| < (2 : ℚ) ^ (e + 1)) (he : -126 ≤ e)
    (hn : roundTiesEven (x / (2 : ℚ) ^ (e - 23)) = n) :
    Float32.nearest x = n * (2 : ℚ) ^ (e - 23) := by
  have hlog : Int.log 2 |x| = e := by
    apply le_antisymm
    · have := (Int.lt_zpow_iff_log_lt (b := 2) (by norm_num) hx).mp (by simpa using h2)
      omega
    · exact (Int.zpow_le_iff_le_log (b := 2) (by norm_num) hx).mp (by simpa using h1)
  have hE : Float32.exponent x = e := by
    unfold Float32.exponent
    rw [hlog]
    exact max_eq_left he
  unfold Float32.nearest Float32.ulp
  rw [hE, hn]

theorem Float32.nearest_zero : Float32.nearest 0 = 0 := by
  simp [Float32.nearest, roundTiesEven]

theorem Float32.nearest_half : Float32.nearest (1 / 2) = 1 / 2 := by
  rw [Float32.nearest_eq_of (1 / 2) (-1) (2 ^ 23) (by norm_num) (by norm_num [abs_of_pos])
    (by norm_num [abs_of_pos]) (by norm_num) (by norm_num [roundTiesEven])]
  norm_num

theorem Float32.nearest_one : Float32.nearest 1 = 1 := by
  rw [Float32.nearest_eq_of 1 0 (2 ^ 23) (by norm_num) (by norm_num)
    (by norm_num) (by norm_num) (by norm_num [roundTiesEven])]
  norm_num

theorem Float32.nearest_three_quarters : Float32.nearest (3 / 4) = 3 / 4 := by
  rw [Float32.nearest_eq_of (3 / 4) (-1) (3 * 2 ^ 22) (by norm_num) (by norm_num [abs_of_pos])
    (by norm_num [abs_of_pos]) (by norm_num) (by norm_num [roundTiesEven])]
  norm_num

theorem Float32.nearest_quarter : Float32.nearest (1 / 4) = 1 / 4 := by
  rw [Float32.nearest_eq_of (1 / 4) (-2) (2 ^ 23) (by norm_num) (by norm_num [abs_of_pos])
    (by norm_num [abs_of_pos]) (by norm_num) (by norm_num [roundTiesEven])]
  norm_num

theorem Float32.nearest_neg_half : Float32.nearest (-(1 / 2)) = -(1 / 2) := by
  rw [Float32.nearest_eq_of (-(1 / 2)) (-1) (-(2 ^ 23)) (by norm_num)
    (by norm_num [abs_of_pos]) (by norm_num [abs_of_pos]) (by norm_num)
    (by norm_num [roundTiesEven])]
  norm_num

theorem Float32.nearest_two_pow_neg_30 : Float32.nearest (1 / 2 ^ 30) = 1 / 2 ^ 30 := by
  rw [Float32.nearest_eq_of (1 / 2 ^ 30) (-30) (2 ^ 23) (by norm_num)
    (by norm_num [abs_of_pos]) (by norm_num [abs_of_pos]) (by norm_num)
    (by norm_num [roundTiesEven])]
  norm_num

theorem Float32.nearest_neg_two_pow_neg_30 :
    Float32.nearest (-(1 / 2 ^ 30)) = -(1 / 2 ^ 30) := by
  rw [Float32.nearest_eq_of (-(1 / 2 ^ 30)) (-30) (-(2 ^ 23)) (by norm_num)
    (by norm_num [abs_of_pos]) (by norm_num [abs_of_pos]) (by norm_num)
    (by norm_num [roundTiesEven])]
  norm_num

theorem Float32.nearest_half_add_tiny : Float32.nearest (1 / 2 + 1 / 2 ^ 30) = 1 / 2 := by
  rw [Float32.nearest_eq_of (1 / 2 + 1 / 2 ^ 30) (-1) (2 ^ 23) (by norm_num)
    (by norm_num [abs_of_pos]) (by norm_num [abs_of_pos]) (by norm_num)
    (by norm_num [roundTiesEven])]
  norm_num

theorem Float32.nearest_one_sub_tiny : Float32.nearest (1 + -(1 / 2 ^ 30)) = 1 := by
  rw [Float32.nearest_eq_of (1 + -(1 / 2 ^ 30)) (-1) (2 ^ 24) (by norm_num)
    (by norm_num [abs_of_pos]) (by norm_num [abs_of_pos]) (by norm_num)
    (by norm_num [roundTiesEven])]
  norm_num

/-! ## What each rounded stat method does to the character -/

theorem Rounded.HealPlayer_id (w : World) (x : ℚ) :
    Rounded.HealPlayer id w x = ActionRPG.HealPlayer w x := rfl

theorem Rounded.HealArmor_id (w : World) (x : ℚ) :
    Rounded.HealArmor id w x = ActionRPG.HealArmor w x := rfl

theorem Rounded.DamagePlayer_id (w : World) (d : ℚ) :
    Rounded.DamagePlayer id w d = ActionRPG.DamagePlayer w d := rfl

theorem Rounded.HealPlayer_result (fl : ℚ → ℚ) (w : World) (x : ℚ) :
    (Rounded.HealPlayer fl w x).self =
      { w.self with PlayerHealth := min (fl (w.self.PlayerHealth + x)) 1 } := by
  unfold Rounded.HealPlayer World.emit
  by_cases h : fl (w.self.PlayerHealth + x) > 1
  · simp [h, min_eq_right (le_of_lt h)]
  · simp [h, min_eq_left (not_lt.mp h)]

theorem Rounded.HealArmor_result (fl : ℚ → ℚ) (w : World) (x : ℚ) :
    (Rounded.HealArmor fl w x).self =
      { w.self with
        PlayerArmor := min (fl (w.self.PlayerArmor + x)) 1
        bHasArmor := true } := by
  unfold Rounded.HealArmor World.emit
  by_cases h : fl (w.self.PlayerArmor + x) > 1
  · simp [h, min_eq_right (le_of_lt h)]
  · simp [h, min_eq_left (not_lt.mp h)]

theorem Rounded.DamagePlayer_result_armored (fl : ℚ → ℚ) (w : World) (d : ℚ)
    (ha : w.self.bHasArmor = true) :
    (Rounded.DamagePlayer fl w d).self =
      if fl (w.self.PlayerArmor - d) < 0 then
        { w.self with
          bHasArmor := false
          PlayerHealth := fl (w.self.PlayerHealth + fl (w.self.PlayerArmor - d))
          PlayerArmor := 0 }
      else { w.self with PlayerArmor := fl (w.self.PlayerArmor - d) } := by
  unfold Rounded.DamagePlayer World.emit
  by_cases h : fl (w.self.PlayerArmor - d) < 0
  · simp [ha, h]
  · simp [ha, h]

/-! ## Concrete single-precision states -/

theorem fresh_armor_sub (boom0 : USpringArmComponent) (d : ℚ) :
    (fresh boom0).self.PlayerArmor - d = 1 - d := rfl

theorem fresh_health_add (boom0 : USpringArmComponent) (r : ℚ) :
    (fresh boom0).self.PlayerHealth + r = 1 + r := rfl

theorem thinArmor_self :
    thinArmor.self = { (fresh stockSpringArm).self with PlayerArmor := 1 / 2 ^ 30 } := by
  rw [thinArmor, Rounded.HealArmor_result, Rounded.DamagePlayer_result_armored _ _ _ rfl,
    fresh_armor_sub, sub_self, Float32.nearest_zero, if_neg (lt_irrefl _)]
  simp only [zero_add, Float32.nearest_two_pow_neg_30]
  rw [min_eq_left (by norm_num)]
  rfl

theorem halfHealth_self :
    halfHealth.self =
      { (fresh stockSpringArm).self with
        PlayerHealth := 1 / 2
        PlayerArmor := 0
        bHasArmor := false } := by
  rw [halfHealth, Rounded.DamagePlayer_result_armored _ _ _ rfl, fresh_armor_sub,
    fresh_health_add, show (1 : ℚ) - 3 / 2 = -(1 / 2) by norm_num,
    Float32.nearest_neg_half, show (1 : ℚ) + -(1 / 2) = 1 / 2 by norm_num,
    Float32.nearest_half, if_pos (by norm_num)]

theorem halfArmor_self :
    halfArmor.self = { (fresh stockSpringArm).self with PlayerArmor := 1 / 2 } := by
  rw [halfArmor, Rounded.DamagePlayer_result_armored _ _ _ rfl, fresh_armor_sub,
    show (1 : ℚ) - 1 / 2 = 1 / 2 by norm_num, Float32.nearest_half, if_neg (by norm_num)]

theorem thinArmor_damage_self :
    (Rounded.DamagePlayer Float32.nearest thinArmor (1 / 2 ^ 29)).self =
      { thinArmor.self with
        bHasArmor := false
        PlayerHealth := 1
        PlayerArmor := 0 } := by
  have hflag : thinArmor.self.bHasArmor = true := by
    rw [thinArmor_self]
    rfl
  have harmor : thinArmor.self.PlayerArmor - 1 / 2 ^ 29 = -(1 / 2 ^ 30) := by
    rw [thinArmor_self]
    norm_num
  have hhealth : thinArmor.self.PlayerHealth + -(1 / 2 ^ 30) = 1 + -(1 / 2 ^ 30) := by
    rw [thinArmor_self]
    rfl
  rw [Rounded.DamagePlayer_result_armored _ _ _ hflag, harmor,
    Float32.nearest_neg_two_pow_neg_30, hhealth, Float32.nearest_one_sub_tiny,
    if_pos (by norm_num)]

/-! ## Armor absorbs first -/

/-- C5, amended: write `fl` for the rounding of each float operation
(`Float32.nearest` in the program, the identity in exact arithmetic), a rounding
that keeps signs and leaves the current health as it is. For a state with bHasArmor
set, armor a ≥ 0 and health h, and a damage d ≥ 0 whose overflow does not exceed the
health left, DamagePlayer(d) leaves PlayerArmor = max(fl(a - d), 0) and
PlayerHealth = fl(h + min(fl(a - d), 0)): with d ≤ a the health is unchanged, with
d > a the armor is 0 and the health is fl(h + fl(a - d)). In exact arithmetic these
are max(a - d, 0) and h - max(d - a, 0), a drop by exactly d - a when d > a. An
overflow larger than the health left is outside this statement. -/
theorem DamagePlayer_armor_absorbs_first (fl : ℚ → ℚ) (w : World) (d : ℚ)
    (ha : w.self.bHasArmor = true) (ha0 : 0 ≤ w.self.PlayerArmor) (hd : 0 ≤ d)
    (hpos : ∀ q, 0 ≤ q → 0 ≤ fl q) (hneg : ∀ q, q ≤ 0 → fl q ≤ 0)
    (hh : fl w.self.PlayerHealth = w.self.PlayerHealth)
    (hk : 0 ≤ w.self.PlayerHealth + min (fl (w.self.PlayerArmor - d)) 0) :
    (Rounded.DamagePlayer fl w d).self.PlayerArmor = max (fl (w.self.PlayerArmor - d)) 0 ∧
    (Rounded.DamagePlayer fl w d).self.PlayerHealth =
      fl (w.self.PlayerHealth + min (fl (w.self.PlayerArmor - d)) 0) ∧
    (d ≤ w.self.PlayerArmor →
      (Rounded.DamagePlayer fl w d).self.PlayerHealth = w.self.PlayerHealth) ∧
    (w.self.PlayerArmor < d →
      (Rounded.DamagePlayer fl w d).self.PlayerArmor = 0 ∧
      (Rounded.DamagePlayer fl w d).self.PlayerHealth =
        fl (w.self.PlayerHealth + fl (w.self.PlayerArmor - d))) ∧
    ((∀ q, fl q = q) →
      (Rounded.DamagePlayer fl w d).self.PlayerArmor = max (w.self.PlayerArmor - d) 0 ∧
      (Rounded.DamagePlayer fl w d).self.PlayerHealth =
        w.self.PlayerHealth - max (d - w.self.PlayerArmor) 0 ∧
      (w.self.PlayerArmor < d →
        (Rounded.DamagePlayer fl w d).self.PlayerHealth =
          w.self.PlayerHealth - (d - w.self.PlayerArmor))) := by
  have _ := ha0
  have _ := hd
  have _ := hk
  have harmor : (Rounded.DamagePlayer fl w d).self.PlayerArmor =
      max (fl (w.self.PlayerArmor - d)) 0 := by
    rw [Rounded.DamagePlayer_result_armored fl w d ha]
    split_ifs with h
    · exact (max_eq_right (le_of_lt h)).symm
    · exact (max_eq_left (not_lt.mp h)).symm
  have hhealth : (Rounded.DamagePlayer fl w d).self.PlayerHealth =
      fl (w.self.PlayerHealth + min (fl (w.self.PlayerArmor - d)) 0) := by
    rw [Rounded.DamagePlayer_result_armored fl w d ha]
    split_ifs with h
    · simp only [min_eq_left (le_of_lt h)]
    · simp only [min_eq_right (not_lt.mp h), add_zero, hh]
  refine ⟨harmor, hhealth, ?_, ?_, ?_⟩
  · intro hle
    have h0 : 0 ≤ fl (w.self.PlayerArmor - d) := hpos _ (by linarith)
    rw [hhealth, min_eq_right h0, add_zero, hh]
  · intro hlt
    have h0 : fl (w.self.PlayerArmor - d) ≤ 0 := hneg _ (by linarith)
    rw [harmor, hhealth, min_eq_left h0]
    exact ⟨max_eq_right h0, rfl⟩
  · intro hid
    rw [harmor, hhealth, hid, hid]
    refine ⟨rfl, ?_, ?_⟩
    · rcases le_total (w.self.PlayerArmor - d) 0 with h | h
      · rw [min_eq_left h, max_eq_left (by linarith)]
        ring
      · rw [min_eq_right h, max_eq_right (by linarith)]
        ring
    · intro hlt
      rw [min_eq_left (by linarith)]
      ring

/-- C5, as stated, fails on single-precision stats: in the state reached from the
fresh character by `DamagePlayer(1)` and `HealArmor(2^-30)` (health 1, armor 2^-30,
flag set) the call `DamagePlayer(2^-29)` breaks the armor, but the overflow 2^-30
is lost when 1 - 2^-30 is rounded: the health stays 1 instead of dropping to
h - max(d - a, 0). -/
theorem DamagePlayer_overflow_lost_to_rounding :
    thinArmor.self.bHasArmor = true ∧
    thinArmor.self.PlayerArmor = 1 / 2 ^ 30 ∧
    thinArmor.self.PlayerHealth = 1 ∧
    (Rounded.DamagePlayer Float32.nearest thinArmor (1 / 2 ^ 29)).self.PlayerArmor = 0 ∧
    (Rounded.DamagePlayer Float32.nearest thinArmor (1 / 2 ^ 29)).self.PlayerHealth = 1 ∧
    (Rounded.DamagePlayer Float32.nearest thinArmor (1 / 2 ^ 29)).self.PlayerHealth ≠
      thinArmor.self.PlayerHealth - max (1 / 2 ^ 29 - thinArmor.self.PlayerArmor) 0 := by
  have h1 : thinArmor.self.bHasArmor = true := by
    rw [thinArmor_self]
    rfl
  have h2 : thinArmor.self.PlayerArmor = 1 / 2 ^ 30 := by
    rw [thinArmor_self]
  have h3 : thinArmor.self.PlayerHealth = 1 := by
    rw [thinArmor_self]
    rfl
  have h4 : (Rounded.DamagePlayer Float32.nearest thinArmor (1 / 2 ^ 29)).self.PlayerArmor
      = 0 := by
    rw [thinArmor_damage_self]
  have h5 : (Rounded.DamagePlayer Float32.nearest thinArmor (1 / 2 ^ 29)).self.PlayerHealth
      = 1 := by
    rw [thinArmor_damage_self]
  refine ⟨h1, h2, h3, h4, h5, ?_⟩
  rw [h5, h2, h3]
  norm_num

/-- Two runs of the amended C5. In single precision, `DamagePlayer(2^-29)` on the
thin-armor state (health 1, armor 2^-30) leaves armor 0 and the rounded health
`fl(1 + fl(2^-30 - 2^-29))`. In exact arithmetic, `DamagePlayer(3/2)` on the fresh
character leaves armor 0 and health 1 - (3/2 - 1). -/
theorem DamagePlayer_armor_absorbs_first_witness :
    (thinArmor.self.bHasArmor = true ∧ 0 ≤ thinArmor.self.PlayerArmor ∧
      (0 : ℚ) ≤ 1 / 2 ^ 29 ∧
      Float32.nearest thinArmor.self.PlayerHealth = thinArmor.self.PlayerHealth ∧
      0 ≤ thinArmor.self.PlayerHealth +
        min (Float32.nearest (thinArmor.self.PlayerArmor - 1 / 2 ^ 29)) 0 ∧
      thinArmor.self.PlayerArmor < 1 / 2 ^ 29 ∧
      (Rounded.DamagePlayer Float32.nearest thinArmor (1 / 2 ^ 29)).self.PlayerArmor = 0 ∧
      (Rounded.DamagePlayer Float32.nearest thinArmor (1 / 2 ^ 29)).self.PlayerHealth =
        Float32.nearest (thinArmor.self.PlayerHealth +
          Float32.nearest (thinArmor.self.PlayerArmor - 1 / 2 ^ 29))) ∧
    ((fresh stockSpringArm).self.bHasArmor = true ∧
      (fresh stockSpringArm).self.PlayerArmor < 3 / 2 ∧
      0 ≤ (fresh stockSpringArm).self.PlayerHealth +
        min (id ((fresh stockSpringArm).self.PlayerArmor - 3 / 2)) 0 ∧
      (Rounded.DamagePlayer id (fresh stockSpringArm) (3 / 2)).self.PlayerArmor =
        max ((fresh stockSpringArm).self.PlayerArmor - 3 / 2) 0 ∧
      (Rounded.DamagePlayer id (fresh stockSpringArm) (3 / 2)).self.PlayerHealth =
        (fresh stockSpringArm).self.PlayerHealth -
          (3 / 2 - (fresh stockSpringArm).self.PlayerArmor)) := by
  have hflag : thinArmor.self.bHasArmor = true := by
    rw [thinArmor_self]
    rfl
  have harmor : thinArmor.self.PlayerArmor = 1 / 2 ^ 30 := by
    rw [thinArmor_self]
  have hhealth : thinArmor.self.PlayerHealth = 1 := by
    rw [thinArmor_self]
    rfl
  have ha0 : 0 ≤ thinArmor.self.PlayerArmor := by
    rw [harmor]
    norm_num
  have hd : (0 : ℚ) ≤ 1 / 2 ^ 29 := by norm_num
  have hh : Float32.nearest thinArmor.self.PlayerHealth = thinArmor.self.PlayerHealth := by
    rw [hhealth, Float32.nearest_one]
  have hk : 0 ≤ thinArmor.self.PlayerHealth +
      min (Float32.nearest (thinArmor.self.PlayerArmor - 1 / 2 ^ 29)) 0 := by
    rw [hhealth, harmor, show (1 : ℚ) / 2 ^ 30 - 1 / 2 ^ 29 = -(1 / 2 ^ 30) by norm_num,
      Float32.nearest_neg_two_pow_neg_30, min_eq_left (by norm_num)]
    norm_num
  have hlt : thinArmor.self.PlayerArmor < 1 / 2 ^ 29 := by
    rw [harmor]
    norm_num
  have h := DamagePlayer_armor_absorbs_first Float32.nearest thinArmor (1 / 2 ^ 29)
    hflag ha0 hd Float32.nearest_nonneg Float32.nearest_nonpos hh hk
  have fflag : (fresh stockSpringArm).self.bHasArmor = true := rfl
  have fa0 : 0 ≤ (fresh stockSpringArm).self.PlayerArmor := by
    rw [show (fresh stockSpringArm).self.PlayerArmor = 1 from rfl]
    norm_num
  have flt : (fresh stockSpringArm).self.PlayerArmor < 3 / 2 := by
    rw [show (fresh stockSpringArm).self.PlayerArmor = 1 from rfl]
    norm_num
  have fk : 0 ≤ (fresh stockSpringArm).self.PlayerHealth +
      min (id ((fresh stockSpringArm).self.PlayerArmor - 3 / 2)) 0 := by
    rw [show (fresh stockSpringArm).self.PlayerArmor = 1 from rfl,
      show (fresh stockSpringArm).self.PlayerHealth = 1 from rfl, id]
    norm_num
  have g := (DamagePlayer_armor_absorbs_first id (fresh stockSpringArm) (3 / 2)
    fflag fa0 (by norm_num) (fun _ hq => hq) (fun _ hq => hq) rfl fk).2.2.2.2 (fun _ => rfl)
  exact ⟨⟨hflag, ha0, hd, hh, hk, hlt, (h.2.2.2.1 hlt).1, (h.2.2.2.1 hlt).2⟩,
    fflag, flt, fk, g.1, g.2.2 flt⟩

/-! ## Healing -/

/-- C7, amended: write `fl` for the rounding of each float operation
(`Float32.nearest` in the program, the identity in exact arithmetic), a monotone
rounding that leaves the current health and armor as they are. For a heal amount
x ≥ 0, HealPlayer(x) sets PlayerHealth to min(fl(h + x), 1); HealArmor(x) sets
PlayerArmor to min(fl(a + x), 1) and bHasArmor to true; a heal never lowers a
healed stat that was at most 1, and a stat already at 1 stays at 1. In exact
arithmetic the new values are min(h + x, 1) and min(a + x, 1). -/
theorem heal_adds_then_caps (fl : ℚ → ℚ) (w : World) (x : ℚ) (hx : 0 ≤ x)
    (hfl : Monotone fl) (hh : fl w.self.PlayerHealth = w.self.PlayerHealth)
    (ha : fl w.self.PlayerArmor = w.self.PlayerArmor) :
    (Rounded.HealPlayer fl w x).self.PlayerHealth = min (fl (w.self.PlayerHealth + x)) 1 ∧
    (Rounded.HealArmor fl w x).self.PlayerArmor = min (fl (w.self.PlayerArmor + x)) 1 ∧
    (Rounded.HealArmor fl w x).self.bHasArmor = true ∧
    (w.self.PlayerHealth ≤ 1 →
      w.self.PlayerHealth ≤ (Rounded.HealPlayer fl w x).self.PlayerHealth) ∧
    (w.self.PlayerArmor ≤ 1 →
      w.self.PlayerArmor ≤ (Rounded.HealArmor fl w x).self.PlayerArmor) ∧
    (w.self.PlayerHealth = 1 → (Rounded.HealPlayer fl w x).self.PlayerHealth = 1) ∧
    (w.self.PlayerArmor = 1 → (Rounded.HealArmor fl w x).self.PlayerArmor = 1) ∧
    ((∀ q, fl q = q) →
      (Rounded.HealPlayer fl w x).self.PlayerHealth = min (w.self.PlayerHealth + x) 1 ∧
      (Rounded.HealArmor fl w x).self.PlayerArmor = min (w.self.PlayerArmor + x) 1) := by
  have h1 : w.self.PlayerHealth ≤ fl (w.self.PlayerHealth + x) := by
    have := hfl (show w.self.PlayerHealth ≤ w.self.PlayerHealth + x by linarith)
    rwa [hh] at this
  have a1 : w.self.PlayerArmor ≤ fl (w.self.PlayerArmor + x) := by
    have := hfl (show w.self.PlayerArmor ≤ w.self.PlayerArmor + x by linarith)
    rwa [ha] at this
  rw [Rounded.HealPlayer_result, Rounded.HealArmor_result]
  refine ⟨rfl, rfl, rfl, ?_, ?_, ?_, ?_, ?_⟩
  · intro h
    exact le_min h1 h
  · intro h
    exact le_min a1 h
  · intro h
    exact min_eq_right (by linarith)
  · intro h
    exact min_eq_right (by linarith)
  · intro hid
    simp only [hid, and_self]

/-- C7, as stated, fails on single-precision stats: with health 1/2 (the fresh
character after `DamagePlayer(3/2)`) `HealPlayer(2^-30)` leaves the health at 1/2,
not at min(h + x, 1); with armor 1/2 (after `DamagePlayer(1/2)`) `HealArmor(2^-30)`
leaves the armor at 1/2. -/
theorem heal_amount_lost_to_rounding :
    halfHealth.self.PlayerHealth = 1 / 2 ∧
    (Rounded.HealPlayer Float32.nearest halfHealth (1 / 2 ^ 30)).self.PlayerHealth = 1 / 2 ∧
    (Rounded.HealPlayer Float32.nearest halfHealth (1 / 2 ^ 30)).self.PlayerHealth ≠
      min (halfHealth.self.PlayerHealth + 1 / 2 ^ 30) 1 ∧
    halfArmor.self.PlayerArmor = 1 / 2 ∧
    (Rounded.HealArmor Float32.nearest halfArmor (1 / 2 ^ 30)).self.PlayerArmor = 1 / 2 ∧
    (Rounded.HealArmor Float32.nearest halfArmor (1 / 2 ^ 30)).self.PlayerArmor ≠
      min (halfArmor.self.PlayerArmor + 1 / 2 ^ 30) 1 := by
  have h1 : halfHealth.self.PlayerHealth = 1 / 2 := by
    rw [halfHealth_self]
  have h2 : (Rounded.HealPlayer Float32.nearest halfHealth (1 / 2 ^ 30)).self.PlayerHealth
      = 1 / 2 := by
    rw [Rounded.HealPlayer_result, h1, Float32.nearest_half_add_tiny]
    exact min_eq_left (by norm_num)
  have a1 : halfArmor.self.PlayerArmor = 1 / 2 := by
    rw [halfArmor_self]
  have a2 : (Rounded.HealArmor Float32.nearest halfArmor (1 / 2 ^ 30)).self.PlayerArmor
      = 1 / 2 := by
    rw [Rounded.HealArmor_result, a1, Float32.nearest_half_add_tiny]
    exact min_eq_left (by norm_num)
  refine ⟨h1, h2, ?_, a1, a2, ?_⟩
  · rw [h2, h1]
    norm_num
  · rw [a2, a1]
    norm_num

/-- Three runs of the amended C7. In single precision, healing the half-health
state (health 1/2, armor 0, flag cleared) by 1/4 gives health 3/4, armor 1/4 and
sets the flag; healing the fresh character by 1/4 leaves the health at 1. In exact
arithmetic, healing the half-health state by 1/4 gives min(1/2 + 1/4, 1). -/
theorem heal_adds_then_caps_witness :
    ((0 : ℚ) ≤ 1 / 4 ∧ Monotone Float32.nearest ∧
      Float32.nearest halfHealth.self.PlayerHealth = halfHealth.self.PlayerHealth ∧
      Float32.nearest halfHealth.self.PlayerArmor = halfHealth.self.PlayerArmor ∧
      halfHealth.self.bHasArmor = false ∧
      (Rounded.HealPlayer Float32.nearest halfHealth (1 / 4)).self.PlayerHealth = 3 / 4 ∧
      (Rounded.HealArmor Float32.nearest halfHealth (1 / 4)).self.PlayerArmor = 1 / 4 ∧
      (Rounded.HealArmor Float32.nearest halfHealth (1 / 4)).self.bHasArmor = true ∧
      halfHealth.self.PlayerHealth ≤
        (Rounded.HealPlayer Float32.nearest halfHealth (1 / 4)).self.PlayerHealth) ∧
    ((fresh stockSpringArm).self.PlayerHealth = 1 ∧
      (Rounded.HealPlayer Float32.nearest (fresh stockSpringArm) (1 / 4)).self.PlayerHealth
        = 1) ∧
    (Rounded.HealPlayer id halfHealth (1 / 4)).self.PlayerHealth =
      min (halfHealth.self.PlayerHealth + 1 / 4) 1 := by
  have hx : (0 : ℚ) ≤ 1 / 4 := by norm_num
  have hhealth : halfHealth.self.PlayerHealth = 1 / 2 := by
    rw [halfHealth_self]
  have harmor : halfHealth.self.PlayerArmor = 0 := by
    rw [halfHealth_self]
  have hflag : halfHealth.self.bHasArmor = false := by
    rw [halfHealth_self]
  have hh : Float32.nearest halfHealth.self.PlayerHealth = halfHealth.self.PlayerHealth := by
    rw [hhealth, Float32.nearest_half]
  have ha : Float32.nearest halfHealth.self.PlayerArmor = halfHealth.self.PlayerArmor := by
    rw [harmor, Float32.nearest_zero]
  have h := heal_adds_then_caps Float32.nearest halfHealth (1 / 4) hx
    Float32.nearest_mono hh ha
  have v1 : (Rounded.HealPlayer Float32.nearest halfHealth (1 / 4)).self.PlayerHealth
      = 3 / 4 := by
    rw [h.1, hhealth, show (1 : ℚ) / 2 + 1 / 4 = 3 / 4 by norm_num,
      Float32.nearest_three_quarters]
    exact min_eq_left (by norm_num)
  have v2 : (Rounded.HealArmor Float32.nearest halfHealth (1 / 4)).self.PlayerArmor
      = 1 / 4 := by
    rw [h.2.1, harmor, zero_add, Float32.nearest_quarter]
    exact min_eq_left (by norm_num)
  have hle : halfHealth.self.PlayerHealth ≤ 1 := by
    rw [hhealth]
    norm_num
  have f1 : (fresh stockSpringArm).self.PlayerHealth = 1 := rfl
  have g := heal_adds_then_caps Float32.nearest (fresh stockSpringArm) (1 / 4) hx
    Float32.nearest_mono Float32.nearest_one Float32.nearest_one
  have e := (heal_adds_then_caps id halfHealth (1 / 4) hx monotone_id rfl rfl).2.2.2.2.2.2.2
    (fun _ => rfl)
  exact ⟨⟨hx, Float32.nearest_mono, hh, ha, hflag, v1, v2, h.2.2.1, h.2.2.2.1 hle⟩,
    ⟨f1, g.2.2.2.2.2.1 f1⟩, e.1⟩

/-! ## The armor flag -/

/-- C8: in every state reachable from the fresh character by any finite sequence
of HealPlayer, HealArmor and DamagePlayer calls (any amounts), bHasArmor = false
implies PlayerArmor = 0. -/
theorem no_armor_flag_means_zero_armor (boom0 : USpringArmComponent)
    (cs : List StatCall)
    (hflag : (runStats (fresh boom0) cs).self.bHasArmor = false) :
    (runStats (fresh boom0) cs).self.PlayerArmor = 0 :=
  runStats_noArmor cs (fresh boom0)
    (fun h => by simp [fresh, AActionRPGCharacter.ctor] at h) hflag

/-- A run of C8: after `DamagePlayer(2)` and `HealPlayer(-1)` the armor flag is
cleared and the armor is 0. -/
theorem no_armor_flag_means_zero_armor_witness :
    (runStats (fresh stockSpringArm)
      [StatCall.DamagePlayer 2, StatCall.HealPlayer (-1)]).self.bHasArmor = false ∧
    (runStats (fresh stockSpringArm)
      [StatCall.DamagePlayer 2, StatCall.HealPlayer (-1)]).self.PlayerArmor = 0 := by
  have hflag : (runStats (fresh stockSpringArm)
      [StatCall.DamagePlayer 2, StatCall.HealPlayer (-1)]).self.bHasArmor = false := by
    simp only [runStats, List.foldl, StatCall.run, HealPlayer_self]
    rw [DamagePlayer_self_armored _ _ rfl]
    norm_num [fresh, AActionRPGCharacter.ctor]
  exact ⟨hflag, no_armor_flag_means_zero_armor stockSpringArm _ hflag⟩

/-! ## Frame -/

/-- C9: HealPlayer changes no field other than PlayerHealth; HealArmor none other
than PlayerArmor and bHasArmor; DamagePlayer none other than PlayerHealth,
PlayerArmor and bHasArmor; EquipItem none at all. In particular CurrentLevel,
UpgradePoints, StrengthValue, DexterityValue, IntellectValue, bIsOverlappingItem
and bIsZoomedIn are the same after each of the four. -/
theorem stat_methods_frame (w : World) (x : ℚ) :
    ((HealPlayer w x).self =
      { w.self with PlayerHealth := (HealPlayer w x).self.PlayerHealth }) ∧
    ((HealArmor w x).self =
      { w.self with
        PlayerArmor := (HealArmor w x).self.PlayerArmor
        bHasArmor := (HealArmor w x).self.bHasArmor }) ∧
    ((DamagePlayer w x).self =
      { w.self with
        PlayerHealth := (DamagePlayer w x).self.PlayerHealth
        PlayerArmor := (DamagePlayer w x).self.PlayerArmor
        bHasArmor := (DamagePlayer w x).self.bHasArmor }) ∧
    (EquipItem w).self = w.self ∧
    (∀ w1 ∈ [HealPlayer w x, HealArmor w x, DamagePlayer w x, EquipItem w],
      w1.self.CurrentLevel = w.self.CurrentLevel ∧
      w1.self.UpgradePoints = w.self.UpgradePoints ∧
      w1.self.StrengthValue = w.self.StrengthValue ∧
      w1.self.DexterityValue = w.self.DexterityValue ∧
      w1.self.IntellectValue = w.self.IntellectValue ∧
      w1.self.bIsOverlappingItem = w.self.bIsOverlappingItem ∧
      w1.self.bIsZoomedIn = w.self.bIsZoomedIn) := by
  have hD : (DamagePlayer w x).self =
      { w.self with
        PlayerHealth := (DamagePlayer w x).self.PlayerHealth
        PlayerArmor := (DamagePlayer w x).self.PlayerArmor
        bHasArmor := (DamagePlayer w x).self.bHasArmor } := by
    cases ha : w.self.bHasArmor with
    | true =>
      rw [DamagePlayer_self_armored w x ha]
      split_ifs with h
      · rfl
      · simp only [← ha]
    | false =>
      rw [DamagePlayer_self_unarmored w x ha]
  have hE : (EquipItem w).self = w.self := by
    unfold EquipItem World.emit
    split_ifs <;> rfl
  refine ⟨by rw [HealPlayer_self], by rw [HealArmor_self], hD, hE, ?_⟩
  intro w1 hw1
  simp only [List.mem_cons, List.mem_singleton, List.not_mem_nil, or_false] at hw1
  rcases hw1 with rfl | rfl | rfl | rfl
  · rw [HealPlayer_self]
    exact ⟨rfl, rfl, rfl, rfl, rfl, rfl, rfl⟩
  · rw [HealArmor_self]
    exact ⟨rfl, rfl, rfl, rfl, rfl, rfl, rfl⟩
  · rw [hD]
    exact ⟨rfl, rfl, rfl, rfl, rfl, rfl, rfl⟩
  · rw [hE]
    exact ⟨rfl, rfl, rfl, rfl, rfl, rfl, rfl⟩

/-! ## Move and Look -/

/-- C6: with a null Controller, Move and Look leave the character and the engine
trace unchanged for every input value; with a Controller, Move issues exactly two
movement inputs (forward, scaled by the input Y, then right, scaled by the input X,
both along the controller yaw) and Look issues yaw with the input X and pitch with the
input Y, and the character fields stay as they were. -/
theorem Move_Look_guarded_by_controller (w : World) (Value : FVector2D) :
    (w.self.Controller = none → Move w Value = w ∧ Look w Value = w) ∧
    (∀ c : AController, w.self.Controller = some c →
      (Move w Value).self = w.self ∧
      (Move w Value).calls = w.calls ++
        [EngineCall.AddMovementInput ⟨⟨0, c.ControlRotation.Yaw, 0⟩, EAxis.X⟩ Value.Y,
         EngineCall.AddMovementInput ⟨⟨0, c.ControlRotation.Yaw, 0⟩, EAxis.Y⟩ Value.X] ∧
      (Look w Value).self = w.self ∧
      (Look w Value).calls = w.calls ++
        [EngineCall.AddControllerYawInput Value.X,
         EngineCall.AddControllerPitchInput Value.Y]) := by
  constructor
  · intro h
    simp [Move, Look, h]
  · intro c h
    simp [Move, Look, h, World.emit]

/-- Two runs of C6: the fresh character has no controller and ignores the input
(3, 4); the possessed one, looking along yaw 90, forwards it. -/
theorem Move_Look_guarded_by_controller_witness :
    ((fresh stockSpringArm).self.Controller = none ∧
      Move (fresh stockSpringArm) ⟨3, 4⟩ = fresh stockSpringArm ∧
      Look (fresh stockSpringArm) ⟨3, 4⟩ = fresh stockSpringArm) ∧
    (possessed.self.Controller = some ⟨⟨0, 90, 0⟩⟩ ∧
      (Move possessed ⟨3, 4⟩).calls =
        [EngineCall.AddMovementInput ⟨⟨0, 90, 0⟩, EAxis.X⟩ 4,
         EngineCall.AddMovementInput ⟨⟨0, 90, 0⟩, EAxis.Y⟩ 3] ∧
      (Look possessed ⟨3, 4⟩).calls =
        [EngineCall.AddControllerYawInput 3, EngineCall.AddControllerPitchInput 4]) := by
  have h0 : (fresh stockSpringArm).self.Controller = none := rfl
  have h1 : possessed.self.Controller = some ⟨⟨0, 90, 0⟩⟩ := rfl
  have a := (Move_Look_guarded_by_controller (fresh stockSpringArm) ⟨3, 4⟩).1 h0
  have b := (Move_Look_guarded_by_controller possessed ⟨3, 4⟩).2 _ h1
  exact ⟨⟨h0, a.1, a.2⟩, h1, b.2.1, b.2.2.2⟩

/-! ## Sprinting and zooming -/

theorem runInputs_snoc (es : List InputEvent) (w : World) (e : InputEvent) :
    runInputs w (es ++ [e]) = (runInputs w es).bind fun w1 => e.run w1 := by
  induction es generalizing w with
  | nil => simp [runInputs]
  | cons e1 es ih =>
    simp only [List.cons_append, runInputs]
    cases h : InputEvent.run w e1 with
    | none => rfl
    | some w1 => simpa using ih w1

theorem lastZoom_snoc (es : List InputEvent) (e : InputEvent) :
    lastZoom (es ++ [e]) =
      match e with
      | .ZoomIn => some .ZoomIn
      | .ZoomOut => some .ZoomOut
      | _ => lastZoom es := by
  simp only [lastZoom, List.foldl_append, List.foldl_cons, List.foldl_nil]

/-- The state summary that every sequence of sprint and zoom events keeps from the
fresh character on: both subobjects stay present, the zoom flag and the arm length
follow the most recent zoom event, and the walk speed follows the last event. -/
theorem runInputs_summary (boom0 : USpringArmComponent) (es : List InputEvent) :
    ∃ w m boom, runInputs (fresh boom0) es = some w ∧
      w.self.CharacterMovement = some m ∧ w.self.CameraBoom = some boom ∧
      m.MaxWalkSpeed = (match es.getLast? with
        | some e => e.walkSpeed
        | none => 500) ∧
      (w.self.bIsZoomedIn = true ↔ lastZoom es = some .ZoomIn) ∧
      boom.TargetArmLength = (match lastZoom es with
        | some .ZoomIn => 150
        | some _ => 300
        | none => 400) := by
  induction es using List.reverseRecOn with
  | nil =>
    exact ⟨fresh boom0, _, _, rfl, rfl, rfl, rfl,
      by simp [fresh, AActionRPGCharacter.ctor, lastZoom], rfl⟩
  | append_singleton es e ih =>
    obtain ⟨w, m, boom, hrun, hm, hb, _, hz, harm⟩ := ih
    rw [runInputs_snoc, hrun, lastZoom_snoc, List.getLast?_append]
    cases e with
    | Sprint =>
      refine ⟨{ w with self := { w.self with
          CharacterMovement := some { m with MaxWalkSpeed := 1500 } } },
        { m with MaxWalkSpeed := 1500 }, boom, ?_, rfl, hb, ?_, hz, harm⟩
      · simp [InputEvent.run, Sprint, hm]
      · simp [InputEvent.walkSpeed]
    | StopSprinting =>
      refine ⟨{ w with self := { w.self with
          CharacterMovement := some { m with MaxWalkSpeed := 600 } } },
        { m with MaxWalkSpeed := 600 }, boom, ?_, rfl, hb, ?_, hz, harm⟩
      · simp [InputEvent.run, StopSprinting, hm]
      · simp [InputEvent.walkSpeed]
    | ZoomIn =>
      refine ⟨ZoomIn w, { m with MaxWalkSpeed := 300 },
        { boom with TargetArmLength := 150, TargetOffset := ⟨0, 80, 70⟩ },
        ?_, ?_, ?_, ?_, ?_, ?_⟩
      · simp [InputEvent.run]
      · simp [ZoomIn, hm, hb, World.emit]
      · simp [ZoomIn, hm, hb, World.emit]
      · simp [InputEvent.walkSpeed]
      · simp [ZoomIn, hm, hb, World.emit]
      · simp
    | ZoomOut =>
      refine ⟨ZoomOut w, { m with MaxWalkSpeed := 600 },
        { boom with TargetArmLength := 300, TargetOffset := ⟨0, 0, 0⟩ },
        ?_, ?_, ?_, ?_, ?_, ?_⟩
      · simp [InputEvent.run]
      · simp [ZoomOut, hm, hb, World.emit]
      · simp [ZoomOut, hm, hb, World.emit]
      · simp [InputEvent.walkSpeed]
      · simp [ZoomOut, hm, hb, World.emit]
      · simp

/-- C10: from the fresh character (camera boom and movement component present),
every non-empty sequence of Sprint, StopSprinting, ZoomIn and ZoomOut events runs
to the end; afterwards MaxWalkSpeed is the value of the last event alone (Sprint
1500, StopSprinting 600, ZoomIn 300, ZoomOut 600), bIsZoomedIn is true exactly when
the most recent zoom event was ZoomIn, the walk speed is not the constructed 500,
and once a zoom event has happened the arm length is not the constructed 400: it
is 300 after a ZoomOut (150 after a ZoomIn). -/
theorem sprint_zoom_last_event_wins (boom0 : USpringArmComponent)
    (es : List InputEvent) (hne : es ≠ []) :
    ∃ w m boom, runInputs (fresh boom0) es = some w ∧
      w.self.CharacterMovement = some m ∧ w.self.CameraBoom = some boom ∧
      m.MaxWalkSpeed = (es.getLast hne).walkSpeed ∧
      (w.self.bIsZoomedIn = true ↔ lastZoom es = some .ZoomIn) ∧
      m.MaxWalkSpeed ≠ 500 ∧
      (lastZoom es = some .ZoomOut → boom.TargetArmLength = 300) ∧
      (lastZoom es = some .ZoomIn → boom.TargetArmLength = 150) ∧
      (lastZoom es ≠ none → boom.TargetArmLength ≠ 400) := by
  obtain ⟨w, m, boom, hrun, hm, hb, hspeed, hz, harm⟩ := runInputs_summary boom0 es
  rw [List.getLast?_eq_getLast es hne] at hspeed
  simp only at hspeed
  refine ⟨w, m, boom, hrun, hm, hb, hspeed, hz, ?_, ?_, ?_, ?_⟩
  · rw [hspeed]
    cases es.getLast hne <;> norm_num [InputEvent.walkSpeed]
  · intro h
    rw [harm, h]
  · intro h
    rw [harm, h]
  · intro h
    rw [harm]
    cases hl : lastZoom es with
    | none => exact absurd hl h
    | some e => cases e <;> norm_num

/-- A run of C10: after ZoomIn, Sprint, ZoomOut the walk speed is 600, the zoom
flag is off and the arm length is 300. -/
theorem sprint_zoom_last_event_wins_witness :
    [InputEvent.ZoomIn, InputEvent.Sprint, InputEvent.ZoomOut] ≠ [] ∧
    ∃ w m boom,
      runInputs (fresh stockSpringArm)
        [InputEvent.ZoomIn, InputEvent.Sprint, InputEvent.ZoomOut] = some w ∧
      w.self.CharacterMovement = some m ∧ w.self.CameraBoom = some boom ∧
      m.MaxWalkSpeed = 600 ∧ w.self.bIsZoomedIn = false ∧ boom.TargetArmLength = 300 := by
  have hne : [InputEvent.ZoomIn, InputEvent.Sprint, InputEvent.ZoomOut] ≠ [] := by simp
  obtain ⟨w, m, boom, hrun, hm, hb, hspeed, hz, _, harm, _, _⟩ :=
    sprint_zoom_last_event_wins stockSpringArm
      [InputEvent.ZoomIn, InputEvent.Sprint, InputEvent.ZoomOut] hne
  have hl : lastZoom [InputEvent.ZoomIn, InputEvent.Sprint, InputEvent.ZoomOut] =
      some InputEvent.ZoomOut := rfl
  refine ⟨hne, w, m, boom, hrun, hm, hb, hspeed, ?_, harm hl⟩
  rw [hl] at hz
  cases hb1 : w.self.bIsZoomedIn with
  | false => rfl
  | true => exact absurd (hz.mp hb1) (by simp)

end ActionRPG
